import Mathlib

/-!
# Verification of the Ari multi-agent orchestration and streaming engine

This file gives a shallow embedding, in Lean 4, of the parts of the Ari
repository that the specification's claims are about, and proves (or refutes)
each claim against that embedding.

Embedded modules:
* `simple.py` — `ContentTracker.get_new_content` and
  `ContentTracker.get_tool_param_changes` (incremental content accumulation);
* `core/lib/my_base_agent_lib.py` — `GlobalAgentRegistry` (`register_agent`,
  `_setup_agent_queue`, `stream_all_messages`);
* `tools/create_worker.py` — `create_worker` and `_is_task_failed`;
* `ui/message_router.py` — the worker outcome classification and the
  "all tasks complete" check of `_handle_worker`, plus the name-based routing
  of `_do_route`;
* `core/agent_manager.py` — the "all tasks complete" check of
  `_handle_message`;
* `core/handoffs.py` — `TaskDecomposer.decompose_task` and
  `_create_default_plan`;
* the agent names fixed by `config/config.py`, `core/main_agent.py`,
  `core/planning_agent.py` and `tools/create_worker.py`.

Python strings are modelled as lists of Unicode code points (`PyStr`), so that
`len`, slicing and `startswith` become `List.length`, `List.drop` and
`List.IsPrefix`.  Python dicts are modelled as insertion-ordered association
lists with `pyGet` / `pyInsert` lookup and update.  Fallible code returns
`Except`/`Option`.
-/

set_option autoImplicit false

/-- A Python `str`: a finite sequence of Unicode code points. -/
abbrev PyStr := List Char

/-- Shorthand turning a Lean string literal into a `PyStr`. -/
def ps (s : String) : PyStr := s.data

/-- Lookup in a Python dict modelled as an association list
(`d.get(k)` / `k in d`). -/
def pyGet {β : Type} (k : String) : List (String × β) → Option β
  | [] => none
  | (k', v) :: rest => if k' = k then some v else pyGet k rest

/-- Update of a Python dict modelled as an association list (`d[k] = v`):
an existing key keeps its position, a new key is appended. -/
def pyInsert {β : Type} (k : String) (v : β) : List (String × β) → List (String × β)
  | [] => [(k, v)]
  | (k', v') :: rest => if k' = k then (k', v) :: rest else (k', v') :: pyInsert k v rest

@[simp] theorem pyGet_nil {β : Type} (k : String) : pyGet (β := β) k [] = none := rfl

theorem pyGet_cons {β : Type} (k k' : String) (v : β) (rest : List (String × β)) :
    pyGet k ((k', v) :: rest) = if k' = k then some v else pyGet k rest := rfl

theorem pyGet_pyInsert_self {β : Type} (k : String) (v : β) (d : List (String × β)) :
    pyGet k (pyInsert k v d) = some v := by
  induction d with
  | nil => simp [pyGet, pyInsert]
  | cons hd tl ih =>
    obtain ⟨k', v'⟩ := hd
    by_cases h : k' = k
    · simp [pyGet, pyInsert, h]
    · simp [pyGet, pyInsert, h, ih]

theorem pyGet_pyInsert_ne {β : Type} (k k₀ : String) (v : β) (d : List (String × β))
    (hne : k₀ ≠ k) : pyGet k (pyInsert k₀ v d) = pyGet k d := by
  induction d with
  | nil => simp [pyGet, pyInsert, hne]
  | cons hd tl ih =>
    obtain ⟨k', v'⟩ := hd
    by_cases h : k' = k₀
    · subst h
      simp [pyGet, pyInsert, hne]
    · simp only [pyInsert, if_neg h]
      by_cases h' : k' = k
      · simp [pyGet, h']
      · simp [pyGet, h', ih]

/-! ## `simple.py` — `ContentTracker`

A Python value appearing in a streamed tool-call argument map.  The source
code only ever applies `str(...)`, `isinstance(..., str)` and string-prefix
operations to these values, so a non-string value is characterised by its
`str()` rendering alone. -/
inductive PyValue where
  /-- a value that `isinstance(value, str)` accepts -/
  | str (s : PyStr)
  /-- any non-string value, identified by its `str(value)` rendering -/
  | nonstr (repr : PyStr)
deriving DecidableEq, Repr

/-- Python `str(value)`. -/
def PyValue.toStr : PyValue → PyStr
  | .str s => s
  | .nonstr r => r

/-- The mutable state of `ContentTracker` (`simple.py`, lines 127–148).
`displayed_lengths` is a `defaultdict(lambda: defaultdict(int))`, modelled as
a total function defaulting to `0`; the two `set`s and the
`tool_params_state` dict are modelled as lists. -/
structure ContentTracker where
  displayed_lengths : String → String → Nat
  displayed_tool_calls : List String
  displayed_tool_results : List String
  tool_params_state : List (String × List (String × PyStr))

/-- A freshly constructed (or `reset`) `ContentTracker`. -/
def ContentTracker.init : ContentTracker where
  displayed_lengths := fun _ _ => 0
  displayed_tool_calls := []
  displayed_tool_results := []
  tool_params_state := []

/-- `ContentTracker.get_new_content` (`simple.py`, lines 150–161): return the
suffix of the cumulative `full_text` not yet displayed for
`(agent_name, content_type)` and record the new displayed length; a snapshot
no longer than what was displayed returns the empty string and leaves the
tracker untouched. -/
def ContentTracker.get_new_content (t : ContentTracker) (agent_name content_type : String)
    (full_text : PyStr) : PyStr × ContentTracker :=
  let displayed_len := t.displayed_lengths agent_name content_type
  if full_text.length ≤ displayed_len then
    ([], t)
  else
    let new_content := full_text.drop displayed_len
    (new_content,
      { t with
        displayed_lengths := fun a c =>
          if a = agent_name ∧ c = content_type then full_text.length
          else t.displayed_lengths a c })

/-- One step of the loop body of `ContentTracker.get_tool_param_changes`
(`simple.py`, lines 185–199), acting on the pair
(per-tool parameter state, accumulated `changes` dict). -/
def toolParamStep (acc : List (String × PyStr) × List (String × PyValue))
    (kv : String × PyValue) : List (String × PyStr) × List (String × PyValue) :=
  let old_state := acc.1
  let changes := acc.2
  let key := kv.1
  let value := kv.2
  let old_value : PyStr := (pyGet key old_state).getD []
  let new_value : PyStr := value.toStr
  if old_value ≠ new_value then
    let changes' :=
      match value with
      | .str s =>
        if old_value <+: s then
          if s.length > old_value.length then
            pyInsert key (.str (s.drop old_value.length)) changes
          else changes
        else pyInsert key value changes
      | .nonstr _ => pyInsert key value changes
    (pyInsert key new_value old_state, changes')
  else
    (old_state, changes)

/-- `ContentTracker.get_tool_param_changes` (`simple.py`, lines 172–201):
for each parameter of `current_params` whose stringified value differs from
the stored one, emit the appended suffix (string values growing by prefix) or
the full new value, and update the stored per-tool state. -/
def ContentTracker.get_tool_param_changes (t : ContentTracker) (tool_id : String)
    (current_params : List (String × PyValue)) : List (String × PyValue) × ContentTracker :=
  let old_state := (pyGet tool_id t.tool_params_state).getD []
  let res := current_params.foldl toolParamStep (old_state, [])
  (res.2, { t with tool_params_state := pyInsert tool_id res.1 t.tool_params_state })

/-- Feeding a sequence of cumulative snapshots for one `(agent, kind)` pair
through `get_new_content`, concatenating the emitted increments. -/
def ContentTracker.feedAll (t : ContentTracker) (agent_name content_type : String) :
    List PyStr → PyStr × ContentTracker
  | [] => ([], t)
  | s :: rest =>
    let out := t.get_new_content agent_name content_type s
    let outs := out.2.feedAll agent_name content_type rest
    (out.1 ++ outs.1, outs.2)

/-- The last snapshot of a sequence (empty sequence: the empty string). -/
def lastSnap (l : List PyStr) : PyStr := l.getLast?.getD []

theorem lastSnap_cons_cons (s s₂ : PyStr) (rest : List PyStr) :
    lastSnap (s :: s₂ :: rest) = lastSnap (s₂ :: rest) := by
  simp [lastSnap, List.getLast?_cons_cons]

theorem chain_prefix_lastSnap :
    ∀ (rest : List PyStr) (s : PyStr), List.Chain' (· <+: ·) (s :: rest) →
      s <+: lastSnap (s :: rest)
  | [], s, _ => by simp [lastSnap]
  | s₂ :: rest', s, h => by
    rw [List.chain'_cons] at h
    exact lastSnap_cons_cons s s₂ rest' ▸
      h.1.trans (chain_prefix_lastSnap rest' s₂ h.2)

theorem drop_prefix_append {s l : PyStr} {d : Nat} (h : s <+: l) (hd : d ≤ s.length) :
    s.drop d ++ l.drop s.length = l.drop d := by
  obtain ⟨u, rfl⟩ := h
  rw [List.drop_append_eq_append_drop, List.drop_append_eq_append_drop]
  have h₁ : s.length - s.length = 0 := by omega
  have h₂ : d - s.length = 0 := by omega
  simp [h₁, h₂]

theorem feedAll_cons_fst (t : ContentTracker) (a c : String) (s : PyStr) (rest : List PyStr) :
    (t.feedAll a c (s :: rest)).1 =
      (t.get_new_content a c s).1 ++ ((t.get_new_content a c s).2.feedAll a c rest).1 := rfl

theorem get_new_content_le (t : ContentTracker) (a c : String) (s : PyStr)
    (h : s.length ≤ t.displayed_lengths a c) :
    t.get_new_content a c s = ([], t) := by
  simp [ContentTracker.get_new_content, h]

theorem get_new_content_gt (t : ContentTracker) (a c : String) (s : PyStr)
    (h : ¬ s.length ≤ t.displayed_lengths a c) :
    t.get_new_content a c s =
      (s.drop (t.displayed_lengths a c),
        { t with displayed_lengths := fun a' c' =>
            if a' = a ∧ c' = c then s.length else t.displayed_lengths a' c' }) := by
  simp [ContentTracker.get_new_content, h]

theorem feedAll_chain :
    ∀ (rest : List PyStr) (s : PyStr) (t : ContentTracker) (a c : String),
      t.displayed_lengths a c ≤ s.length → List.Chain' (· <+: ·) (s :: rest) →
      (t.feedAll a c (s :: rest)).1 = (lastSnap (s :: rest)).drop (t.displayed_lengths a c)
  | [], s, t, a, c, hd, _ => by
    rw [feedAll_cons_fst]
    by_cases h : s.length ≤ t.displayed_lengths a c
    · have heq : t.displayed_lengths a c = s.length := by omega
      rw [get_new_content_le _ _ _ _ h]
      simp [ContentTracker.feedAll, lastSnap, heq]
    · rw [get_new_content_gt _ _ _ _ h]
      simp [ContentTracker.feedAll, lastSnap]
  | s₂ :: rest', s, t, a, c, hd, hchain => by
    rw [List.chain'_cons] at hchain
    obtain ⟨hpre, hchain₂⟩ := hchain
    have hlen : s.length ≤ s₂.length := hpre.length_le
    rw [feedAll_cons_fst, lastSnap_cons_cons]
    by_cases h : s.length ≤ t.displayed_lengths a c
    · rw [get_new_content_le _ _ _ _ h]
      have ih := feedAll_chain rest' s₂ t a c (by omega) hchain₂
      simpa using ih
    · rw [get_new_content_gt _ _ _ _ h]
      have hupd :
          ({ t with displayed_lengths := fun a' c' =>
              if a' = a ∧ c' = c then s.length
              else t.displayed_lengths a' c' } : ContentTracker).displayed_lengths a c =
            s.length := by simp
      have ih := feedAll_chain rest' s₂
        { t with displayed_lengths := fun a' c' =>
            if a' = a ∧ c' = c then s.length else t.displayed_lengths a' c' }
        a c (by rw [hupd]; exact hlen) hchain₂
      rw [hupd] at ih
      simp only []
      rw [ih]
      exact drop_prefix_append (hpre.trans (chain_prefix_lastSnap rest' s₂ hchain₂)) hd

/-- **C1.** For every agent name and content kind, feeding
`ContentTracker.get_new_content` a sequence of cumulative snapshots
`S1, …, Sn`, each a prefix of the next, starting from a tracker that has
displayed nothing for that key, and concatenating the successive outputs,
yields exactly `Sn` — no chunk repeated, no chunk skipped. -/
theorem get_new_content_chain_reconstructs (snaps : List PyStr)
    (agent_name content_type : String) (t : ContentTracker)
    (hfresh : t.displayed_lengths agent_name content_type = 0)
    (hchain : List.Chain' (· <+: ·) snaps) :
    (t.feedAll agent_name content_type snaps).1 = lastSnap snaps := by
  cases snaps with
  | nil => simp [ContentTracker.feedAll, lastSnap]
  | cons s rest =>
    have := feedAll_chain rest s t agent_name content_type (by omega) hchain
    simpa [hfresh] using this

/-- Witness for C1: the chain `"ab" ⊑ "abc" ⊑ "abcde"` is reassembled to
exactly `"abcde"`. -/
theorem get_new_content_chain_reconstructs_witness :
    (ContentTracker.init.feedAll "Ari" "text" [ps "ab", ps "abc", ps "abcde"]).1 =
      lastSnap [ps "ab", ps "abc", ps "abcde"] :=
  get_new_content_chain_reconstructs [ps "ab", ps "abc", ps "abcde"] "Ari" "text"
    ContentTracker.init rfl
    (by simp only [List.chain'_cons, List.chain'_singleton, and_true]; decide)

/-- **C4.** Feeding `get_new_content` a cumulative snapshot no longer than the
already-delivered length returns the empty string and leaves the tracker
(in particular its recorded delivered length) unchanged: a total no-op. -/
theorem get_new_content_stale_noop (t : ContentTracker) (agent_name content_type : String)
    (full_text : PyStr)
    (h : full_text.length ≤ t.displayed_lengths agent_name content_type) :
    t.get_new_content agent_name content_type full_text = ([], t) := by
  simp [ContentTracker.get_new_content, h]

/-- Witness for C4: after delivering `"abc"`, the shorter snapshot `"ab"`
produces no output and does not disturb the tracker. -/
theorem get_new_content_stale_noop_witness :
    (ContentTracker.init.get_new_content "Ari" "text" (ps "abc")).2.get_new_content
        "Ari" "text" (ps "ab") =
      ([], (ContentTracker.init.get_new_content "Ari" "text" (ps "abc")).2) :=
  get_new_content_stale_noop _ "Ari" "text" (ps "ab") (by decide)

theorem toolParamStep_frame (acc : List (String × PyStr) × List (String × PyValue))
    (k₀ : String) (v₀ : PyValue) (key : String) (h : k₀ ≠ key) :
    pyGet key (toolParamStep acc (k₀, v₀)).1 = pyGet key acc.1 ∧
    pyGet key (toolParamStep acc (k₀, v₀)).2 = pyGet key acc.2 := by
  simp only [toolParamStep]
  by_cases hch : (pyGet k₀ acc.1).getD [] ≠ v₀.toStr
  · rw [if_pos hch]
    refine ⟨pyGet_pyInsert_ne _ _ _ _ h, ?_⟩
    cases v₀ with
    | str s =>
      by_cases hp : (pyGet k₀ acc.1).getD [] <+: s
      · by_cases hl : s.length > ((pyGet k₀ acc.1).getD []).length
        · simp [hp, hl, pyGet_pyInsert_ne _ _ _ _ h]
        · simp [hp, hl]
      · simp [hp, pyGet_pyInsert_ne _ _ _ _ h]
    | nonstr r => exact pyGet_pyInsert_ne _ _ _ _ h
  · rw [if_neg hch]
    exact ⟨rfl, rfl⟩

theorem foldl_toolParamStep_frame (l : List (String × PyValue)) (key : String)
    (h : ∀ p ∈ l, p.1 ≠ key) :
    ∀ acc : List (String × PyStr) × List (String × PyValue),
      pyGet key (l.foldl toolParamStep acc).1 = pyGet key acc.1 ∧
      pyGet key (l.foldl toolParamStep acc).2 = pyGet key acc.2 := by
  induction l with
  | nil => intro acc; exact ⟨rfl, rfl⟩
  | cons p rest ih =>
    intro acc
    obtain ⟨k₀, v₀⟩ := p
    have h₀ : k₀ ≠ key := h (k₀, v₀) (List.mem_cons_self _ _)
    have hrest : ∀ p ∈ rest, p.1 ≠ key := fun p hp => h p (List.mem_cons_of_mem _ hp)
    rw [List.foldl_cons]
    have hstep := toolParamStep_frame acc k₀ v₀ key h₀
    have htail := ih hrest (toolParamStep acc (k₀, v₀))
    exact ⟨htail.1.trans hstep.1, htail.2.trans hstep.2⟩

/-- **C3.** Per-key behaviour of `ContentTracker.get_tool_param_changes`: a key
whose stringified value is unchanged is omitted and its stored state is left
alone; a string value properly extending the stored string emits only the
appended suffix; any other change emits the full new value; and every emitted
key's stored state is updated to (the string rendering of) the new value. -/
theorem get_tool_param_changes_spec (t : ContentTracker) (tool_id key : String)
    (value : PyValue) (current_params : List (String × PyValue))
    (hmem : (key, value) ∈ current_params)
    (hnodup : (current_params.map Prod.fst).Nodup)
    (old_state : List (String × PyStr))
    (hos : old_state = (pyGet tool_id t.tool_params_state).getD [])
    (old : PyStr) (hold : old = (pyGet key old_state).getD [])
    (changes : List (String × PyValue)) (t' : ContentTracker)
    (hrun : t.get_tool_param_changes tool_id current_params = (changes, t')) :
    (old = value.toStr →
        pyGet key changes = none ∧
        pyGet key ((pyGet tool_id t'.tool_params_state).getD []) = pyGet key old_state) ∧
    (∀ s, value = .str s → old ≠ s → old <+: s →
        pyGet key changes = some (.str (s.drop old.length)) ∧
        pyGet key ((pyGet tool_id t'.tool_params_state).getD []) = some s) ∧
    (old ≠ value.toStr →
        (∀ s, value = .str s → ¬ old <+: s) →
        pyGet key changes = some value ∧
        pyGet key ((pyGet tool_id t'.tool_params_state).getD []) = some value.toStr) := by
  obtain ⟨pre, post, hsplit⟩ := List.append_of_mem hmem
  have hnd := hnodup
  rw [hsplit, List.map_append, List.map_cons] at hnd
  have hmid := List.nodup_middle.mp hnd
  have hkey : key ∉ pre.map Prod.fst ++ post.map Prod.fst := (List.nodup_cons.mp hmid).1
  have hpre : ∀ p ∈ pre, p.1 ≠ key := by
    intro p hp hc
    exact hkey (List.mem_append_left _ (hc ▸ List.mem_map_of_mem Prod.fst hp))
  have hpost : ∀ p ∈ post, p.1 ≠ key := by
    intro p hp hc
    exact hkey (List.mem_append_right _ (hc ▸ List.mem_map_of_mem Prod.fst hp))
  -- unpack the run of `get_tool_param_changes`
  simp only [ContentTracker.get_tool_param_changes, ← hos] at hrun
  have hpair := (Prod.mk.injEq _ _ _ _).mp hrun
  have hchanges : changes = (current_params.foldl toolParamStep (old_state, [])).2 :=
    hpair.1.symm
  have hstate : (pyGet tool_id t'.tool_params_state).getD [] =
      (current_params.foldl toolParamStep (old_state, [])).1 := by
    rw [← hpair.2]
    simp [pyGet_pyInsert_self]
  rw [hsplit] at hchanges hstate
  rw [List.foldl_append, List.foldl_cons] at hchanges hstate
  have hframe₁ := foldl_toolParamStep_frame pre key hpre (old_state, [])
  have holdacc : (pyGet key (pre.foldl toolParamStep (old_state, [])).1).getD [] = old := by
    rw [hframe₁.1, ← hold]
  have hframe₂ := foldl_toolParamStep_frame post key hpost
    (toolParamStep (pre.foldl toolParamStep (old_state, [])) (key, value))
  refine ⟨?_, ?_, ?_⟩
  · -- unchanged value: omitted, state untouched
    intro hsame
    rw [hchanges, hstate, hframe₂.1, hframe₂.2]
    simp only [toolParamStep, holdacc]
    rw [if_neg (by simpa using hsame)]
    exact ⟨hframe₁.2.trans rfl, hframe₁.1⟩
  · -- string value, proper prefix growth: only the appended suffix
    intro s hs hne hp
    subst hs
    have hlt : old.length < s.length :=
      lt_of_le_of_ne hp.length_le (fun hl => hne (hp.eq_of_length hl))
    rw [hchanges, hstate, hframe₂.1, hframe₂.2]
    simp only [toolParamStep, holdacc]
    rw [if_pos (by simpa [PyValue.toStr] using hne)]
    simp only [PyValue.toStr]
    rw [if_pos hp, if_pos hlt]
    exact ⟨pyGet_pyInsert_self _ _ _, pyGet_pyInsert_self _ _ _⟩
  · -- replaced / non-monotonic value: full new value
    intro hne hcase
    rw [hchanges, hstate, hframe₂.1, hframe₂.2]
    simp only [toolParamStep, holdacc]
    rw [if_pos hne]
    cases value with
    | str s =>
      dsimp only
      rw [if_neg (hcase s rfl)]
      exact ⟨pyGet_pyInsert_self _ _ _, pyGet_pyInsert_self _ _ _⟩
    | nonstr r =>
      exact ⟨pyGet_pyInsert_self _ _ _, pyGet_pyInsert_self _ _ _⟩

/-- Witness for C3: for the tool-call argument map
`{"code": "print(1)", "n": 2}` arriving after stored state `{"code": "print"}`,
the `code` key emits only the appended suffix `"(1)"`, while the fresh
non-string key `n` emits the full value, and the stored state ends up at the
stringified new values. -/
theorem get_tool_param_changes_spec_witness :
    pyGet "code"
        (({ ContentTracker.init with
            tool_params_state := [("tool1", [("code", ps "print")])] } :
              ContentTracker).get_tool_param_changes "tool1"
          [("code", .str (ps "print(1)")), ("n", .nonstr (ps "2"))]).1 =
      some (.str (ps "(1)")) ∧
    pyGet "code"
        ((pyGet "tool1"
            (({ ContentTracker.init with
                tool_params_state := [("tool1", [("code", ps "print")])] } :
                  ContentTracker).get_tool_param_changes "tool1"
              [("code", .str (ps "print(1)")), ("n", .nonstr (ps "2"))]).2.tool_params_state).getD
          []) =
      some (ps "print(1)") :=
  (get_tool_param_changes_spec
      { ContentTracker.init with tool_params_state := [("tool1", [("code", ps "print")])] }
      "tool1" "code" (.str (ps "print(1)"))
      [("code", .str (ps "print(1)")), ("n", .nonstr (ps "2"))]
      (by decide) (by decide) [("code", ps "print")] (by decide) (ps "print")
      (by decide) _ _ rfl).2.1 (ps "print(1)") rfl (by decide) (by decide)

/-! ## Data model: messages and content blocks

`Msg` (agentscope messages as consumed by this repository): a producing
agent's name, content that is either a plain string or a list of typed
blocks, and an optional open metadata map. -/

inductive ContentBlock where
  | text (text : PyStr)
  | thinking (text : PyStr)
  | tool_use (id : String) (name : String) (input : List (String × PyValue))
  | tool_result (tool_use_id : String) (content : PyStr) (is_error : Bool)
      (metadata : List (String × String))
deriving DecidableEq, Repr

inductive MsgContent where
  | str (s : PyStr)
  | blocks (bs : List ContentBlock)
deriving DecidableEq, Repr

structure Msg where
  name : String
  content : MsgContent
  metadata : Option (List (String × String))
deriving DecidableEq, Repr

/-! ## `core/lib/my_base_agent_lib.py` — `GlobalAgentRegistry`

The class attributes of `GlobalAgentRegistry` (lines 8–13), plus an
instrumentation field `wired` recording, in order, every
`agent.set_msg_queue_enabled(True, queue)` call made by
`_setup_agent_queue` — i.e. every time some agent's emission sink is
attached to the shared fan-in queue. -/

structure RegistryState where
  agents : List String
  monitored_agent_ids : List String
  message_queue_exists : Bool
  wired : List String
deriving DecidableEq, Repr

/-- `GlobalAgentRegistry._setup_agent_queue` (lines 21–25): attach the agent's
sink to the shared queue only if its id is not yet in the monitored set, then
add the id to the set. -/
def _setup_agent_queue (st : RegistryState) (agent_id : String) : RegistryState :=
  if agent_id ∈ st.monitored_agent_ids then st
  else
    { st with
      wired := st.wired ++ [agent_id]
      monitored_agent_ids := agent_id :: st.monitored_agent_ids }

/-- `GlobalAgentRegistry.register_agent` (lines 15–19): append to the agent
directory; if a multiplexing session is active (the shared queue exists), wire
the new agent immediately. -/
def register_agent (st : RegistryState) (agent_id : String) : RegistryState :=
  let st' := { st with agents := st.agents ++ [agent_id] }
  if st'.message_queue_exists then _setup_agent_queue st' agent_id else st'

/-- The registry-mutating steps that can happen during one multiplexing
session: a dynamic `register_agent` call, or the timeout re-scan of
`stream_all_messages` (lines 57–65) wiring agents from
`last_checked_index` onwards. -/
inductive RegistryOp where
  | register (agent_id : String)
  | rescan (last_checked_index : Nat)
deriving DecidableEq, Repr

def applyRegistryOp (st : RegistryState) : RegistryOp → RegistryState
  | .register agent_id => register_agent st agent_id
  | .rescan i => (st.agents.drop i).foldl _setup_agent_queue st

def applyRegistryOps (st : RegistryState) (ops : List RegistryOp) : RegistryState :=
  ops.foldl applyRegistryOp st

/-- Session invariant: no agent has been wired twice, and every wired agent is
recorded in the monitored set. -/
def wiredOnce (st : RegistryState) : Prop :=
  st.wired.Nodup ∧ ∀ agent_id ∈ st.wired, agent_id ∈ st.monitored_agent_ids

theorem setup_preserves_wiredOnce (st : RegistryState) (agent_id : String)
    (h : wiredOnce st) : wiredOnce (_setup_agent_queue st agent_id) := by
  unfold _setup_agent_queue
  by_cases hm : agent_id ∈ st.monitored_agent_ids
  · rw [if_pos hm]; exact h
  · rw [if_neg hm]
    constructor
    · refine List.Nodup.append h.1 (List.nodup_singleton _) ?_
      intro x hx hx'
      rw [List.mem_singleton] at hx'
      exact hm (hx' ▸ h.2 x hx)
    · intro x hx
      rw [List.mem_append, List.mem_singleton] at hx
      rcases hx with hx | hx
      · exact List.mem_cons_of_mem _ (h.2 x hx)
      · exact hx ▸ List.mem_cons_self _ _

theorem foldl_setup_preserves_wiredOnce (l : List String) :
    ∀ st : RegistryState, wiredOnce st → wiredOnce (l.foldl _setup_agent_queue st) := by
  induction l with
  | nil => intro st h; exact h
  | cons x rest ih =>
    intro st h
    exact ih _ (setup_preserves_wiredOnce st x h)

theorem applyRegistryOp_preserves_wiredOnce (st : RegistryState) (op : RegistryOp)
    (h : wiredOnce st) : wiredOnce (applyRegistryOp st op) := by
  cases op with
  | register agent_id =>
    unfold applyRegistryOp register_agent
    dsimp only
    by_cases hq :
        ({ st with agents := st.agents ++ [agent_id] } : RegistryState).message_queue_exists
    · rw [if_pos hq]; exact setup_preserves_wiredOnce _ _ h
    · rw [if_neg hq]; exact h
  | rescan i => exact foldl_setup_preserves_wiredOnce _ _ h

/-- **C10.** Within one multiplexing session (i.e. starting from the fresh
per-session state in which nothing has been wired yet), any interleaving of
dynamic `register_agent` calls and timeout re-scans attaches each agent's
emission sink to the shared fan-in queue at most once: the wiring log has no
duplicates, so no agent's events are enqueued twice because of double
wiring. -/
theorem agent_wired_at_most_once (st : RegistryState) (hw : st.wired = [])
    (ops : List RegistryOp) : (applyRegistryOps st ops).wired.Nodup := by
  have h₀ : wiredOnce st := by
    constructor
    · rw [hw]; exact List.nodup_nil
    · intro x hx
      rw [hw] at hx
      exact absurd hx (List.not_mem_nil x)
  have : ∀ l st', wiredOnce st' → wiredOnce (applyRegistryOps st' l) := by
    intro l
    induction l with
    | nil => intro st' h; exact h
    | cons op rest ih =>
      intro st' h
      exact ih _ (applyRegistryOp_preserves_wiredOnce st' op h)
  exact (this ops st h₀).1

/-- Witness for C10: an agent registered while the session is active (wired
immediately) and then seen again by the re-scan is wired only once. -/
theorem agent_wired_at_most_once_witness :
    (applyRegistryOps
        { agents := [], monitored_agent_ids := [], message_queue_exists := true, wired := [] }
        [.register "Worker_math-1", .rescan 0]).wired.Nodup :=
  agent_wired_at_most_once _ rfl _

/-- An element of the shared fan-in queue of `stream_all_messages`: either a
`(msg, last, speech)` tuple enqueued by a monitored agent (the `speech`
component is dropped on the `yield_speech=False` path and is omitted here),
or the `end_signal` string enqueued by the root task's done-callback. -/
inductive QItem where
  | item (msg : Msg) (last : Bool)
  | endSignal
deriving DecidableEq, Repr

/-- How the root task of `stream_all_messages` finished. -/
inductive RootOutcome where
  | ok
  | error (e : String)
  | cancelled
deriving DecidableEq, Repr

/-- The consumer loop of `stream_all_messages` (lines 54–74): pop queue items
in arrival order, yielding `(msg, last)` pairs, until the end-signal; `none`
if the end-signal never arrives (the loop would re-poll forever).  A timeout
merely triggers the registry re-scan (modelled by `RegistryOp.rescan`) and
re-polls — it never drops an item. -/
def drainUntilEnd : List QItem → Option (List (Msg × Bool))
  | [] => none
  | .endSignal :: _ => some []
  | .item m l :: rest => (drainUntilEnd rest).map (fun ys => (m, l) :: ys)

/-- `GlobalAgentRegistry.stream_all_messages` (lines 28–81), for
`yield_speech=False`, as a function of the agents registered at session
start, the arrival-ordered contents of the shared queue, and the root task's
outcome.  It returns the yielded `(msg, last)` pairs, the exception (if any)
propagated to the caller, and the final registry state:

* lines 40–44 create the fresh queue, clear the monitored set and wire every
  currently registered agent;
* lines 49–52: the done-callback pushes `end_signal` when the root task
  completes (this is the trailing `endSignal` of a well-formed trace);
* lines 54–74 yield queue items until the end-signal (`drainUntilEnd`);
* line 76 calls `task.exception()`, which *raises* `CancelledError` if the
  root task was cancelled; line 78 re-raises the root task's exception.
  In both of these cases the function exits before lines 80–81, so the
  queue/monitored-set cleanup only happens when the root task succeeded. -/
def stream_all_messages (agents : List String) (trace : List QItem)
    (outcome : RootOutcome) :
    Option (List (Msg × Bool) × Option String × RegistryState) :=
  let st₁ := agents.foldl _setup_agent_queue
    { agents := agents, monitored_agent_ids := [], message_queue_exists := true, wired := [] }
  match drainUntilEnd trace with
  | none => none
  | some ys =>
    match outcome with
    | .ok =>
      some (ys, none,
        { st₁ with message_queue_exists := false, monitored_agent_ids := [] })
    | .error e => some (ys, some e, st₁)
    | .cancelled => some (ys, some "asyncio.CancelledError", st₁)

theorem drainUntilEnd_append (events : List (Msg × Bool)) (extra : List QItem) :
    drainUntilEnd (events.map (fun p => QItem.item p.1 p.2) ++ QItem.endSignal :: extra) =
      some events := by
  induction events with
  | nil => rfl
  | cons e rest ih =>
    obtain ⟨m, l⟩ := e
    simp [drainUntilEnd, ih]

theorem foldl_setup_queue_exists (l : List String) :
    ∀ st : RegistryState,
      (l.foldl _setup_agent_queue st).message_queue_exists = st.message_queue_exists := by
  induction l with
  | nil => intro st; rfl
  | cons x rest ih =>
    intro st
    rw [List.foldl_cons, ih]
    unfold _setup_agent_queue
    by_cases h : x ∈ st.monitored_agent_ids
    · rw [if_pos h]
    · rw [if_neg h]

/-- **C2 (amended).** For a session whose registered agents emit `events` (in
arrival order) before the root task completes: the done-callback pushes the
end sentinel onto the fan-in queue on every completion; the consumer-facing
stream yields exactly the events that precede the sentinel and then
terminates (anything after the sentinel is never yielded); if the root task
raised (or was cancelled), that exception is re-raised to the caller after
the sentinel is consumed; but the shared queue and the monitored-agent set
are cleared *only when the root task completed without exception* — on the
errored and cancelled paths the generator raises before reaching the cleanup
lines, leaving both in place. -/
theorem stream_all_messages_spec (agents : List String) (events : List (Msg × Bool))
    (extra : List QItem) (outcome : RootOutcome) :
    ∃ st : RegistryState,
      stream_all_messages agents
          (events.map (fun p => QItem.item p.1 p.2) ++ QItem.endSignal :: extra) outcome =
        some (events,
          (match outcome with
            | .ok => none
            | .error e => some e
            | .cancelled => some "asyncio.CancelledError"),
          st) ∧
      ((st.message_queue_exists = false ∧ st.monitored_agent_ids = []) ↔ outcome = .ok) := by
  unfold stream_all_messages
  rw [drainUntilEnd_append]
  cases outcome with
  | ok =>
    refine ⟨_, rfl, ?_⟩
    simp
  | error e =>
    refine ⟨_, rfl, ?_⟩
    simp [foldl_setup_queue_exists]
  | cancelled =>
    refine ⟨_, rfl, ?_⟩
    simp [foldl_setup_queue_exists]

/-- Counterexample to **C2** as stated: with one registered agent `"Ari"` and
a root task that finished with exception `"boom"`, `stream_all_messages`
does re-raise the exception after the sentinel, but finishes with
`message_queue_exists = true` and a non-empty monitored set: the shared
channel and the per-session bookkeeping are *not* cleared on the errored
completion path (there is no `finally`; the `raise` on line 78 exits before
lines 80–81). -/
theorem stream_all_messages_error_no_cleanup :
    stream_all_messages ["Ari"] [QItem.endSignal] (.error "boom") =
      some ([], some "boom",
        { agents := ["Ari"], monitored_agent_ids := ["Ari"],
          message_queue_exists := true, wired := ["Ari"] }) := by
  decide

/-! ## `tools/create_worker.py` and `ui/message_router.py` — worker dispatch
and outcome classification -/

/-- Python `str.lower()`, modelled on the ASCII range (identity elsewhere).
This agrees with CPython on every character of the failure keywords below
(lower-case ASCII, CJK and symbols are all fixed points of `lower`). -/
def pyLower (s : PyStr) : PyStr := s.map Char.toLower

/-- The ASCII apostrophe, U+0027. -/
def apos : Char := Char.ofNat 39

/-- The bilingual failure-keyword list of `_is_task_failed`
(`tools/create_worker.py`, lines 127–143; the identical list is repeated in
`ui/message_router.py`, lines 315–331). -/
def failure_keywords : List PyStr :=
  [ps "失败", ps "错误", ps "异常", ps "无法", ps "不能", ps "未能",
   ps "未定义", ps "不支持", ps "无效", ps "拒绝", ps "超时",
   ps "error", ps "failed", ps "failure", ps "exception", ps "unable",
   ps "cannot", ps "can" ++ [apos] ++ ps "t", ps "could not",
   ps "couldn" ++ [apos] ++ ps "t",
   ps "zerodivisionerror", ps "valueerror", ps "typeerror",
   ps "keyerror", ps "indexerror", ps "attributeerror",
   ps "nameerror", ps "runtimeerror", ps "ioerror",
   ps "❌", ps "✗", ps "[失败]", ps "[错误]", ps "[异常]"]

/-- `_is_task_failed` (`tools/create_worker.py`, lines 116–152, repeated as
`MessageRouter._is_task_failed` in `ui/message_router.py`, lines 303–340):
lower-case the text and report failure iff it contains any failure keyword
as a substring. -/
def _is_task_failed (text_content : PyStr) : Bool :=
  let text_lower := pyLower text_content
  failure_keywords.any fun keyword => decide (keyword <:+: text_lower)

theorem _is_task_failed_iff (text_content : PyStr) :
    _is_task_failed text_content = true ↔
      ∃ keyword ∈ failure_keywords, keyword <:+: pyLower text_content := by
  simp [_is_task_failed, List.any_eq_true]

/-- The text of a `text` block (used after filtering to text blocks only). -/
def block_text : ContentBlock → PyStr
  | .text t => t
  | _ => []

/-- The possible results of the single `await worker(Msg(...))` call inside
`create_worker`: the worker's final reply content, or an exception raised
while constructing/executing the worker. -/
inductive WorkerOutcome where
  | replies (content : MsgContent)
  | raises (e : PyStr)
deriving DecidableEq, Repr

/-- An `agentscope` `ToolResponse` as built by `create_worker`: its content
blocks plus the `{"task_id": task_id, "status": status}` metadata dict. -/
structure ToolResponse where
  content : List ContentBlock
  task_id : Int
  status : String
deriving DecidableEq, Repr

/-- Worker names: `f"Worker_{agent_name}-{task_id}"`
(`tools/create_worker.py`, line 66). -/
def worker_agent_name (agent_name : String) (task_id : Int) : String :=
  "Worker_" ++ agent_name ++ "-" ++ toString task_id

/-- An instrumented run of `create_worker`: the returned `ToolResponse`, the
name given to the constructed worker agent, and the number of worker
invocation attempts made. -/
structure CreateWorkerRun where
  response : ToolResponse
  worker_name : String
  worker_calls : Nat
deriving DecidableEq, Repr

/-- `create_worker` (`tools/create_worker.py`, lines 19–113) as a function of
its arguments and of the outcome of its one worker invocation.  The `try`
block makes exactly one `await worker(...)` call; on success the reply's text
blocks are kept, their joined text is scanned by `_is_task_failed`, and the
status is `failed`/`success` accordingly; on an exception the `except` arm
returns a `failed` response whose text is
`f"❌ 任务 {task_id} 执行失败: {str(e)}"`. -/
def create_worker (task_id : Int) (_task_description : PyStr) (agent_name : String)
    (_work_prompt : PyStr) (outcome : WorkerOutcome) : CreateWorkerRun :=
  match outcome with
  | .raises e =>
    { response :=
        { content := [.text (ps "❌ 任务 " ++ (toString task_id).data ++ ps " 执行失败: " ++ e)],
          task_id := task_id,
          status := "failed" },
      worker_name := worker_agent_name agent_name task_id,
      worker_calls := 1 }
  | .replies c =>
    let content_blocks :=
      match c with
      | .str s => [ContentBlock.text s]
      | .blocks bs => bs.filter fun b => match b with | .text _ => true | _ => false
    let result_text :=
      match c with
      | .str s => s
      | .blocks _ => (content_blocks.map block_text).flatten
    let is_failed := _is_task_failed result_text
    { response :=
        { content := content_blocks,
          task_id := task_id,
          status := if is_failed then "failed" else "success" },
      worker_name := worker_agent_name agent_name task_id,
      worker_calls := 1 }

/-- **C5.** `create_worker` always returns a `ToolResponse` whose metadata is
`{task_id, status}` with `status ∈ {"success", "failed"}`, makes exactly one
worker invocation attempt (no retry), and never propagates an exception: an
exception in the worker invocation is caught and turned into a `failed`
response carrying the exception message as its text content. -/
theorem create_worker_contract (task_id : Int) (task_description : PyStr)
    (agent_name : String) (work_prompt : PyStr) (outcome : WorkerOutcome)
    (r : CreateWorkerRun)
    (hrun : create_worker task_id task_description agent_name work_prompt outcome = r) :
    r.worker_calls = 1 ∧
    r.response.task_id = task_id ∧
    (r.response.status = "success" ∨ r.response.status = "failed") ∧
    (∀ e, outcome = .raises e →
      r.response.status = "failed" ∧
      r.response.content =
        [.text (ps "❌ 任务 " ++ (toString task_id).data ++ ps " 执行失败: " ++ e)]) := by
  subst hrun
  cases outcome with
  | raises e =>
    refine ⟨rfl, rfl, Or.inr rfl, ?_⟩
    intro e' he
    cases he
    exact ⟨rfl, rfl⟩
  | replies c =>
    refine ⟨rfl, rfl, ?_, ?_⟩
    · by_cases h : _is_task_failed
        (match c with
          | .str s => s
          | .blocks _ =>
            (((match c with
                | .str s => [ContentBlock.text s]
                | .blocks bs =>
                  bs.filter fun b => match b with | .text _ => true | _ => false)).map
              block_text).flatten) = true
      · right
        simp [create_worker, h]
      · left
        simp [create_worker] at h ⊢
        simp [h]
    · intro e he
      cases he

/-- Witness for C5: a worker raising `ZeroDivisionError` yields one single
invocation attempt and a `failed` response carrying the exception message. -/
theorem create_worker_contract_witness :
    (create_worker 3 (ps "divide") "math" (ps "do it")
          (.raises (ps "ZeroDivisionError: division by zero"))).worker_calls = 1 ∧
    (create_worker 3 (ps "divide") "math" (ps "do it")
          (.raises (ps "ZeroDivisionError: division by zero"))).response.task_id = 3 ∧
    ((create_worker 3 (ps "divide") "math" (ps "do it")
          (.raises (ps "ZeroDivisionError: division by zero"))).response.status = "success" ∨
      (create_worker 3 (ps "divide") "math" (ps "do it")
          (.raises (ps "ZeroDivisionError: division by zero"))).response.status = "failed") ∧
    (∀ e, (WorkerOutcome.raises (ps "ZeroDivisionError: division by zero")) = .raises e →
      (create_worker 3 (ps "divide") "math" (ps "do it")
          (.raises (ps "ZeroDivisionError: division by zero"))).response.status = "failed" ∧
      (create_worker 3 (ps "divide") "math" (ps "do it")
          (.raises (ps "ZeroDivisionError: division by zero"))).response.content =
        [.text (ps "❌ 任务 " ++ (toString (3 : Int)).data ++ ps " 执行失败: " ++ e)]) :=
  create_worker_contract 3 (ps "divide") "math" (ps "do it")
    (.raises (ps "ZeroDivisionError: division by zero")) _ rfl

/-- `MessageRouter._extract_text` (`ui/message_router.py`, lines 342–353):
a string content is returned as-is; for a block list the text of the *first*
`text` block is returned; otherwise the empty string. -/
def _extract_text (content : MsgContent) : PyStr :=
  match content with
  | .str s => s
  | .blocks bs =>
    (bs.findSome? fun b => match b with | .text t => some t | _ => none).getD []

/-- Layer 1 of the worker failure detection
(`ui/message_router.py`, lines 250–255): a present, truthy (non-empty)
message metadata dict whose `status` entry equals `"failed"`. -/
def workerMetaFailed (metadata : Option (List (String × String))) : Bool :=
  match metadata with
  | some m => decide (m ≠ []) && decide (pyGet "status" m = some "failed")
  | none => false

/-- Layer 2 of the worker failure detection
(`ui/message_router.py`, lines 257–267): some `tool_result` content block
whose metadata carries `status == "failed"`. -/
def workerToolResultFailed (content : MsgContent) : Bool :=
  match content with
  | .blocks bs =>
    bs.any fun b =>
      match b with
      | .tool_result _ _ _ md => decide (pyGet "status" md = some "failed")
      | _ => false
  | .str _ => false

/-- The three-layer worker outcome classification of
`MessageRouter._handle_worker` (`ui/message_router.py`, lines 247–273):
metadata status, then tool-result metadata status, then the bilingual
failure-keyword scan of the extracted text — evaluated in that order. -/
def routerWorkerFailed (msg : Msg) : Bool :=
  if workerMetaFailed msg.metadata then true
  else if workerToolResultFailed msg.content then true
  else _is_task_failed (_extract_text msg.content)

theorem workerMetaFailed_iff (metadata : Option (List (String × String))) :
    workerMetaFailed metadata = true ↔
      ∃ m, metadata = some m ∧ m ≠ [] ∧ pyGet "status" m = some "failed" := by
  cases metadata <;> simp [workerMetaFailed]

theorem workerToolResultFailed_iff (content : MsgContent) :
    workerToolResultFailed content = true ↔
      ∃ bs, content = .blocks bs ∧
        ∃ b ∈ bs, ∃ tool_use_id c is_error md,
          b = ContentBlock.tool_result tool_use_id c is_error md ∧
            pyGet "status" md = some "failed" := by
  cases content with
  | str s => simp [workerToolResultFailed]
  | blocks bs =>
    simp only [workerToolResultFailed, List.any_eq_true]
    constructor
    · rintro ⟨b, hb, hbf⟩
      cases b with
      | tool_result tid c ie md =>
        exact ⟨bs, rfl, _, hb, tid, c, ie, md, rfl, by simpa using hbf⟩
      | text t => simp at hbf
      | thinking t => simp at hbf
      | tool_use i n inp => simp at hbf
    · rintro ⟨bs', hbs', b, hb, tid, c, ie, md, rfl, hst⟩
      cases hbs'
      exact ⟨_, hb, by simpa using hst⟩

/-- **C6.** The router classifies a worker's final reply as `failed` exactly
when one of the three ordered checks fires: an explicit `status = "failed"`
in the (present, non-empty) response metadata; an explicit `status =
"failed"` in some `tool_result` block's metadata; or the bilingual
failure-keyword scan finding a keyword in the lower-cased final text. -/
theorem worker_outcome_classification (msg : Msg) :
    routerWorkerFailed msg = true ↔
      ((∃ m, msg.metadata = some m ∧ m ≠ [] ∧ pyGet "status" m = some "failed") ∨
        (∃ bs, msg.content = .blocks bs ∧
          ∃ b ∈ bs, ∃ tool_use_id c is_error md,
            b = ContentBlock.tool_result tool_use_id c is_error md ∧
              pyGet "status" md = some "failed") ∨
        (∃ keyword ∈ failure_keywords,
          keyword <:+: pyLower (_extract_text msg.content))) := by
  unfold routerWorkerFailed
  by_cases h₁ : workerMetaFailed msg.metadata = true
  · rw [if_pos h₁]
    exact ⟨fun _ => Or.inl ((workerMetaFailed_iff _).mp h₁), fun _ => rfl⟩
  · have hn₁ : ¬ ∃ m, msg.metadata = some m ∧ m ≠ [] ∧ pyGet "status" m = some "failed" :=
      fun hl => h₁ ((workerMetaFailed_iff _).mpr hl)
    rw [if_neg h₁]
    by_cases h₂ : workerToolResultFailed msg.content = true
    · rw [if_pos h₂]
      exact ⟨fun _ => Or.inr (Or.inl ((workerToolResultFailed_iff _).mp h₂)), fun _ => rfl⟩
    · have hn₂ : ¬ ∃ bs, msg.content = .blocks bs ∧
          ∃ b ∈ bs, ∃ tool_use_id c is_error md,
            b = ContentBlock.tool_result tool_use_id c is_error md ∧
              pyGet "status" md = some "failed" :=
        fun hl => h₂ ((workerToolResultFailed_iff _).mpr hl)
      rw [if_neg h₂, _is_task_failed_iff]
      constructor
      · exact fun h3 => Or.inr (Or.inr h3)
      · rintro (hl | hl | hl)
        · exact absurd hl hn₁
        · exact absurd hl hn₂
        · exact hl

/-! ## Agent names and name-based routing -/

/-- `config/config.py`, line 14: `os.getenv("PROJECT_NAME", "Ari")` — the
project name constant (the environment override is out of scope; the shipped
default is `"Ari"`). -/
def PROJECT_NAME : String := "Ari"

/-- `core/main_agent.py`, line 177: the root agent is constructed with
`name = PROJECT_NAME`. -/
def main_agent_name : String := PROJECT_NAME

/-- `core/planning_agent.py`, line 27: the planning agent is constructed with
`name = "PlanningAgent"`. -/
def planning_agent_name : String := "PlanningAgent"

/-- The target widget a message is dispatched to by name. -/
inductive RouteTarget where
  | main
  | planning
  | worker
  | other
deriving DecidableEq, Repr

/-- The name dispatch of `MessageRouter._do_route`
(`ui/message_router.py`, lines 88–103): the project name → main-agent
handling, the literal string `"Planning"` → planning handling, a
`"Worker_"`-prefixed name → worker handling, anything else → the plain chat
widget. -/
def route_message_name (msg_name : String) : RouteTarget :=
  if msg_name = PROJECT_NAME then .main
  else if msg_name = "Planning" then .planning
  else if ps "Worker_" <+: ps msg_name then .worker
  else .other

/-- **C8.** Evaluation of the names the system actually constructs against
the routing strings: the root agent's name is the project name constant and
worker names follow `"Worker_" + agent_name + "-" + task_id` (both routed to
their handlers), but the planning agent is named `"PlanningAgent"`, which is
*not* the string `"Planning"` that the message routers match on — the
planner's messages fall through to the generic branch. -/
theorem agent_names_vs_routing (agent_name : String) (task_id : Int) :
    main_agent_name = PROJECT_NAME ∧
    route_message_name main_agent_name = .main ∧
    worker_agent_name agent_name task_id =
      "Worker_" ++ agent_name ++ "-" ++ toString task_id ∧
    planning_agent_name ≠ "Planning" ∧
    route_message_name planning_agent_name = .other := by
  refine ⟨rfl, rfl, rfl, by decide, by decide⟩

/-! ## "All tasks complete" conditions -/

/-- One entry of the router's `self.steps` list: the planner-assigned subtask
with its mutable status (0 pending, 1 assigning, 2 running, 3 done,
4 failed) and accumulated result text. -/
structure Step where
  status : Nat
  result : PyStr
deriving DecidableEq, Repr

/-- `MessageRouter._handle_worker` (`ui/message_router.py`, line 295):
`all(step["status"] in [3, 4] for step in self.steps)` — both `Done` and
`Failed` are terminal. -/
def router_all_complete (steps : List Step) : Bool :=
  steps.all fun step => step.status = 3 ∨ step.status = 4

/-- `AriAgentManager._handle_message` (`core/agent_manager.py`, line 262):
`self.steps and all(step["status"] == 3 for step in self.steps)` — only
`Done` counts, and an empty step list is falsy. -/
def manager_all_complete (steps : List Step) : Bool :=
  decide (steps ≠ []) && steps.all fun step => step.status = 3

/-- Counterexample to **C9** as stated: on a plan whose two subtasks ended
`Done` (3) and `Failed` (4) — every subtask terminal — the MessageRouter
check reports completion but the AriAgentManager check does not: the two
cited modules disagree, so "the system's condition holds exactly when every
subtask is terminal (Done or Failed)" is false for the manager's check. -/
theorem all_complete_disagree :
    router_all_complete [⟨3, []⟩, ⟨4, []⟩] = true ∧
    manager_all_complete [⟨3, []⟩, ⟨4, []⟩] = false := by
  decide

/-- **C9 (amended).** `MessageRouter`'s "all tasks complete" condition holds
exactly when every subtask has reached a terminal status, with both `Done`
(3) and `Failed` (4) terminal — so mixed done/failed plans are reported
complete there, with failed results kept in the step list; but
`AriAgentManager`'s condition instead requires a non-empty plan in which
every subtask is `Done` (3), so a `Failed` subtask prevents that module from
ever reporting completion. -/
theorem all_complete_conditions (steps : List Step) :
    (router_all_complete steps = true ↔
      ∀ step ∈ steps, step.status = 3 ∨ step.status = 4) ∧
    (manager_all_complete steps = true ↔
      steps ≠ [] ∧ ∀ step ∈ steps, step.status = 3) := by
  constructor
  · simp [router_all_complete, List.all_eq_true]
  · simp [manager_all_complete, List.all_eq_true]

/-! ## `core/handoffs.py` — `TaskDecomposer`

The planner's reply text reaches `decompose_task` through `json.loads`; the
value space of parsed JSON and the Python exceptions that can escape the
`try` block (which catches only `json.JSONDecodeError` and `KeyError`). -/

inductive Json where
  | null
  | bool (b : Bool)
  | num (n : Int)
  | str (s : PyStr)
  | arr (items : List Json)
  | obj (fields : List (String × Json))

/-- The uncaught Python exceptions relevant to `decompose_task`. -/
inductive PyExc where
  | keyError
  | typeError
  | attributeError
deriving DecidableEq, Repr

/-- An `agentscope.plan.SubTask` as constructed by `decompose_task`
(only the fields the source passes). -/
structure SubTask where
  name : Json
  description : Json
  expected_outcome : Json

/-- One entry of the metadata dict built alongside the plan
(`core/handoffs.py`, lines 88–92). -/
structure SubTaskMeta where
  agent_type : Json
  dependencies : Json
  expected_output : Json

/-- An `agentscope.plan.Plan` as constructed by `decompose_task`. -/
structure Plan where
  name : Json
  description : Json
  expected_outcome : Json
  subtasks : List SubTask

/-- The loop body for one `task_data` (`core/handoffs.py`, lines 78–92):
`task_data["name"]` / `task_data["description"]` raise `KeyError` when the
key is absent and `TypeError` when `task_data` is not a dict; the `.get`
accesses never raise. -/
def buildSubtask (task_data : Json) : Except PyExc (SubTask × (Json × SubTaskMeta)) :=
  match task_data with
  | .obj f =>
    match pyGet "name" f with
    | none => .error .keyError
    | some name =>
      match pyGet "description" f with
      | none => .error .keyError
      | some description =>
        .ok ({ name := name,
               description := description,
               expected_outcome := (pyGet "expected_output" f).getD (.str []) },
             (name,
              { agent_type := (pyGet "agent_type" f).getD (.str (ps "general")),
                dependencies := (pyGet "dependencies" f).getD (.arr []),
                expected_output := (pyGet "expected_output" f).getD (.str []) }))
  | _ => .error .typeError

/-- Python iteration over the value of `plan_data.get("subtasks", [])`
(`for i, task_data in enumerate(...)`): a list yields its elements; a string
yields its characters (each a length-1 `str`, so any non-empty string makes
the first `task_data["name"]` raise `TypeError`); a dict yields its keys
(strings, same `TypeError`); anything else is not iterable (`TypeError`). -/
def iterSubtasks (j : Json) : Except PyExc (List Json) :=
  match j with
  | .arr items => .ok items
  | .str s => if s.isEmpty then .ok [] else .error .typeError
  | .obj f => if f.isEmpty then .ok [] else .error .typeError
  | _ => .error .typeError

/-- The subtask-building loop (`core/handoffs.py`, lines 78–92): build the
`subtasks` list and the metadata dict in order, stopping at the first raised
exception.  (Python's `metadata_dict[task_data["name"]] = …` would overwrite
an earlier duplicate name; names are kept in order here, which agrees with
the dict whenever names are distinct.) -/
def buildSubtasks (items : List Json) :
    Except PyExc (List SubTask × List (Json × SubTaskMeta)) :=
  match items with
  | [] => .ok ([], [])
  | item :: rest =>
    match buildSubtask item with
    | .error e => .error e
    | .ok (st, meta) =>
      match buildSubtasks rest with
      | .error e => .error e
      | .ok (sts, metas) => .ok (st :: sts, meta :: metas)

/-- `TaskDecomposer._create_default_plan` (`core/handoffs.py`, lines
109–163): the fixed three-step decomposition analyze → execute → summarize
with its fixed dependency chain. -/
def _create_default_plan (task_description : PyStr) : Plan × List (Json × SubTaskMeta) :=
  ({ name := .str (ps "默认任务计划"),
     description := .str task_description,
     expected_outcome := .str (ps "完成所有子任务并提供最终答案"),
     subtasks :=
       [{ name := .str (ps "分析任务需求"),
          description := .str (ps "分析任务需求: " ++ task_description),
          expected_outcome := .str (ps "任务分析报告") },
        { name := .str (ps "执行核心任务"),
          description := .str (ps "执行核心任务: " ++ task_description),
          expected_outcome := .str (ps "任务执行结果") },
        { name := .str (ps "总结和验证结果"),
          description := .str (ps "总结和验证结果"),
          expected_outcome := .str (ps "最终答案") }] },
   [(.str (ps "分析任务需求"),
     { agent_type := .str (ps "analysis"),
       dependencies := .arr [],
       expected_output := .str (ps "任务分析报告") }),
    (.str (ps "执行核心任务"),
     { agent_type := .str (ps "general"),
       dependencies := .arr [.str (ps "分析任务需求")],
       expected_output := .str (ps "任务执行结果") }),
    (.str (ps "总结和验证结果"),
     { agent_type := .str (ps "analysis"),
       dependencies := .arr [.str (ps "执行核心任务")],
       expected_output := .str (ps "最终答案") })])

/-- `TaskDecomposer.decompose_task` (`core/handoffs.py`, lines 31–107) as a
function of the task description and of the result of `json.loads` on the
planner's reply (`.error ()` = `json.JSONDecodeError`).  The `try` block
catches exactly `(json.JSONDecodeError, KeyError)` and falls back to
`_create_default_plan`; `plan_data.get(...)` on a non-dict raises an
*uncaught* `AttributeError`, and iterating/subscripting ill-shaped
`subtasks` values raises an *uncaught* `TypeError`. -/
def decompose_task (task_description : PyStr) (loads : Except Unit Json) :
    Except PyExc (Plan × List (Json × SubTaskMeta)) :=
  match loads with
  | .error _ => .ok (_create_default_plan task_description)
  | .ok plan_data =>
    match plan_data with
    | .obj fields =>
      match iterSubtasks ((pyGet "subtasks" fields).getD (.arr [])) with
      | .error e => .error e
      | .ok items =>
        match buildSubtasks items with
        | .error .keyError => .ok (_create_default_plan task_description)
        | .error e => .error e
        | .ok (subtasks, metadata_dict) =>
          .ok ({ name := (pyGet "plan_name" fields).getD (.str (ps "任务计划")),
                 description := (pyGet "plan_description" fields).getD (.str task_description),
                 expected_outcome :=
                   (pyGet "plan_expected_outcome" fields).getD
                     (.str (ps "完成所有子任务并提供最终答案")),
                 subtasks := subtasks }, metadata_dict)
    | _ => .error .attributeError

/-- Counterexample to **C7** as stated: the planner reply `"[]"` is valid
JSON and contains no subtask `name`/`description` fields at all, yet
`decompose_task` does not return the default plan — `plan_data.get(...)` on
the parsed list raises an uncaught `AttributeError`. -/
theorem decompose_task_nonobject_raises :
    decompose_task (ps "demo") (.ok (.arr [])) = .error .attributeError ∧
    decompose_task (ps "demo") (.ok (.arr [])) ≠
      .ok (_create_default_plan (ps "demo")) :=
  ⟨rfl, fun h => Except.noConfusion h⟩

theorem buildSubtasks_keyError (items : List Json)
    (hobj : ∀ item ∈ items, ∃ f, item = .obj f)
    (hmiss : ∃ item ∈ items, ∃ f, item = .obj f ∧
      (pyGet "name" f = none ∨ pyGet "description" f = none)) :
    buildSubtasks items = .error .keyError := by
  induction items with
  | nil => obtain ⟨item, him, _⟩ := hmiss; exact absurd him (List.not_mem_nil item)
  | cons item rest ih =>
    obtain ⟨f, hf⟩ := hobj item (List.mem_cons_self _ _)
    subst hf
    by_cases hhead : pyGet "name" f = none ∨ pyGet "description" f = none
    · rcases hhead with hn | hd
      · simp [buildSubtasks, buildSubtask, hn]
      · cases hname : pyGet "name" f with
        | none => simp [buildSubtasks, buildSubtask, hname]
        | some nm => simp [buildSubtasks, buildSubtask, hname, hd]
    · push_neg at hhead
      obtain ⟨hn, hd⟩ := hhead
      obtain ⟨nm, hnm⟩ := Option.ne_none_iff_exists'.mp hn
      obtain ⟨ds, hds⟩ := Option.ne_none_iff_exists'.mp hd
      have hrest : buildSubtasks rest = .error .keyError := by
        apply ih
        · exact fun i hi => hobj i (List.mem_cons_of_mem _ hi)
        · obtain ⟨i, hi, g, hg, hmg⟩ := hmiss
          rcases List.mem_cons.mp hi with hi | hi
          · exfalso
            subst hi
            cases hg
            rcases hmg with hmg | hmg
            · rw [hmg] at hnm; cases hnm
            · rw [hmg] at hds; cases hds
          · exact ⟨i, hi, g, hg, hmg⟩
      simp [buildSubtasks, buildSubtask, hnm, hds, hrest]

/-- **C7 (amended).** `decompose_task` returns the fixed three-step default
plan (analyze → execute → summarize with its fixed dependency chain), with
no exception, when the planner reply is not valid JSON, and also when it is
a JSON *object* whose `subtasks` entries are objects of which at least one
lacks the required `name` or `description` field (`KeyError` is caught); but
a valid-JSON reply whose top level is not an object escapes with an uncaught
`AttributeError` (see the counterexample), so the fallback does not cover
every field-less valid-JSON reply. -/
theorem decompose_task_fallback (task_description : PyStr)
    (fields : List (String × Json)) (items : List Json)
    (hsub : (pyGet "subtasks" fields).getD (.arr []) = .arr items)
    (hobj : ∀ item ∈ items, ∃ f, item = .obj f)
    (hmiss : ∃ item ∈ items, ∃ f, item = .obj f ∧
      (pyGet "name" f = none ∨ pyGet "description" f = none)) :
    decompose_task task_description (.error ()) =
      .ok (_create_default_plan task_description) ∧
    decompose_task task_description (.ok (.obj fields)) =
      .ok (_create_default_plan task_description) := by
  refine ⟨rfl, ?_⟩
  have hbuild := buildSubtasks_keyError items hobj hmiss
  simp [decompose_task, hsub, iterSubtasks, hbuild]

/-- Witness for C7: a planner reply parsed to
`{"subtasks": [{"name": "步骤1"}]}` (subtask missing `description`) falls
back to the default plan, as does a reply that is not valid JSON. -/
theorem decompose_task_fallback_witness :
    decompose_task (ps "demo") (.error ()) =
      .ok (_create_default_plan (ps "demo")) ∧
    decompose_task (ps "demo")
        (.ok (.obj [("subtasks", .arr [.obj [("name", .str (ps "步骤1"))]])])) =
      .ok (_create_default_plan (ps "demo")) :=
  decompose_task_fallback (ps "demo")
    [("subtasks", .arr [.obj [("name", .str (ps "步骤1"))]])]
    [.obj [("name", .str (ps "步骤1"))]]
    rfl
    (by
      intro item h
      rw [List.mem_singleton] at h
      exact ⟨_, h⟩)
    ⟨.obj [("name", .str (ps "步骤1"))], List.mem_singleton.mpr rfl,
      [("name", .str (ps "步骤1"))], rfl, Or.inr rfl⟩
